import Mathlib

/-!
# Verification of `speech/grpc/transcribe_async.py`

A shallow embedding of the sample script that submits an asynchronous
speech-recognition job and polls the long-running-operation endpoint until
the operation reports `done`.  The remote service is abstracted as a pair of
response functions; the script's observable behaviour (channel creation,
RPC calls with their deadlines, prints, sleeps) is recorded as a trace of
events.  The poll loop, which in Python is `while True: ...`, is embedded
with an explicit fuel bound: running out of fuel models the loop still
running, so non-termination statements become "for every fuel, the loop has
not yet terminated".
-/

namespace TranscribeAsync

/-- `DEADLINE_SECS = 10` (line 28): per-call deadline, in seconds. -/
def DEADLINE_SECS : Nat := 10

/-- `SPEECH_SCOPE` (line 29). -/
def SPEECH_SCOPE : String := "https://www.googleapis.com/auth/cloud-platform"

/-- `cloud_speech_pb2.RecognitionConfig` as constructed at lines 61-69. -/
structure RecognitionConfig where
  encoding : String
  sample_rate : Int
  language_code : String
deriving DecidableEq

/-- `cloud_speech_pb2.RecognitionAudio` as constructed at lines 70-72. -/
structure RecognitionAudio where
  uri : String
deriving DecidableEq

/-- `cloud_speech_pb2.AsyncRecognizeRequest` (lines 60-73). -/
structure AsyncRecognizeRequest where
  config : RecognitionConfig
  audio : RecognitionAudio
deriving DecidableEq

/-- `operations_pb2.GetOperationRequest` (line 88). -/
structure GetOperationRequest where
  name : String
deriving DecidableEq

/-- The `google.rpc.Status` submessage read as `operation.error` (line 91).
In proto3 an unset string field reads as `""`, so an absent error is the
value with empty `message`; `code` stands for the further error
information a Status can carry besides the message. -/
structure OperationError where
  code : Int
  message : String
deriving DecidableEq

/-- One alternative of a `SpeechRecognitionResult` (lines 102-104).
`confidence` is a floating-point field in the proto; it is embedded as a
rational, which is faithful for every concrete value the sample prints. -/
structure SpeechRecognitionAlternative where
  transcript : String
  confidence : Rat
deriving DecidableEq

/-- One element of `response.results` (lines 100-104). -/
structure SpeechRecognitionResult where
  alternatives : List SpeechRecognitionAlternative
deriving DecidableEq

/-- `cloud_speech_pb2.AsyncRecognizeResponse` (line 97). -/
structure AsyncRecognizeResponse where
  results : List SpeechRecognitionResult
deriving DecidableEq

/-- `google.longrunning.Operation`, the operation handle returned by
`AsyncRecognize` and by each `GetOperation` poll.  The `response` field is
embedded already unpacked into an `AsyncRecognizeResponse` (the script
unpacks it at lines 97-98). -/
structure Operation where
  name : String
  done : Bool
  error : OperationError
  response : AsyncRecognizeResponse
deriving DecidableEq

/-- The remote service, abstracted: `asyncRecognize` is the reply to the one
submission call; `getOperation req i` is the reply to the `i`-th
`GetOperation` call (0-based) when that call carries request `req` — the
index lets the remote operation make progress between polls. -/
structure SpeechService where
  asyncRecognize : AsyncRecognizeRequest → Operation
  getOperation : GetOperationRequest → Nat → Operation

/-- Observable events of one run of the script, in program order. -/
inductive Event where
  /-- `make_channel('speech.googleapis.com', 443)` (line 55). -/
  | makeChannel (host : String) (port : Nat)
  /-- `service.AsyncRecognize(request, DEADLINE_SECS)` (lines 60-73). -/
  | asyncRecognizeCall (req : AsyncRecognizeRequest) (deadline : Nat)
  /-- `print(operation)` (line 76). -/
  | printOperation (op : Operation)
  /-- `print('Waiting for server processing...')` (line 85). -/
  | printWaiting
  /-- `time.sleep(1)` (line 86). -/
  | sleep (secs : Nat)
  /-- `service.GetOperation(request, DEADLINE_SECS)` (lines 87-89). -/
  | getOperationCall (req : GetOperationRequest) (deadline : Nat)
  /-- The operation-error warning print (line 92). -/
  | printOperationError (e : OperationError)
  /-- `print('Result:')` (line 101). -/
  | printResultHeader
  /-- The per-alternative print (lines 103-104). -/
  | printAlternative (confidence : Rat) (transcript : String)
deriving DecidableEq

/-- Whether an event is a network interaction: channel creation, the
submission RPC, or a poll RPC. -/
def Event.isNetwork : Event → Bool
  | Event.makeChannel _ _ => true
  | Event.asyncRecognizeCall _ _ => true
  | Event.getOperationCall _ _ => true
  | _ => false

/-- Whether an event is a `GetOperation` poll RPC. -/
def Event.isGetOperationCall : Event → Bool
  | Event.getOperationCall _ _ => true
  | _ => false

/-- The deadline an RPC event carries (`none` for non-RPC events). -/
def Event.rpcDeadline : Event → Option Nat
  | Event.asyncRecognizeCall _ d => some d
  | Event.getOperationCall _ d => some d
  | _ => none

/-- Number of `GetOperation` poll RPCs in a trace. -/
def countGetOps (tr : List Event) : Nat :=
  tr.countP Event.isGetOperationCall

/-- The events of one iteration of the `while True` loop (lines 83-92),
given the handle `op` the poll returned: the waiting print, the 1-second
sleep, the `GetOperation` call by `name`, and — exactly when
`operation.error.message` is truthy, i.e. non-empty — the error warning. -/
def iterEvents (name : String) (op : Operation) : List Event :=
  [Event.printWaiting, Event.sleep 1,
    Event.getOperationCall ⟨name⟩ DEADLINE_SECS]
  ++ (if op.error.message = "" then [] else [Event.printOperationError op.error])

/-- The poll loop (lines 83-95), with fuel: `pollLoop svc name fuel i`
runs at most `fuel` further iterations, the next poll being the `i`-th
`GetOperation` call overall.  Returns the trace and `some` final handle if
the loop exited via `break` (`operation.done`), else `none` (still
looping when the fuel ran out — the real loop has no other exit). -/
def pollLoop (svc : SpeechService) (name : String) : Nat → Nat → List Event × Option Operation
  | 0, _ => ([], none)
  | fuel + 1, i =>
    if (svc.getOperation ⟨name⟩ i).done then
      (iterEvents name (svc.getOperation ⟨name⟩ i), some (svc.getOperation ⟨name⟩ i))
    else
      (iterEvents name (svc.getOperation ⟨name⟩ i) ++ (pollLoop svc name fuel (i + 1)).1,
        (pollLoop svc name fuel (i + 1)).2)

/-- The request built inline at lines 60-73. -/
def buildRequest (input_uri encoding : String) (sample_rate : Int)
    (language_code : String) : AsyncRecognizeRequest :=
  { config :=
      { encoding := encoding
        sample_rate := sample_rate
        language_code := language_code }
    audio := { uri := input_uri } }

/-- The result printing after the loop (lines 97-104): for each result a
header line, then one line per alternative. -/
def printResults (resp : AsyncRecognizeResponse) : List Event :=
  resp.results.flatMap fun r =>
    Event.printResultHeader ::
      r.alternatives.map fun a => Event.printAlternative a.confidence a.transcript

/-- The events after the loop: when the loop exited via `break` the script
unpacks and prints the results (lines 97-104); when the loop is still
running those lines are never reached. -/
def finalPrint : Option Operation → List Event
  | none => []
  | some op => printResults op.response

/-- `main(input_uri, encoding, sample_rate, language_code='en-US')`
(lines 54-104), as a trace-producing function over the abstract service.
In Python `language_code` defaults to `'en-US'`; here it is passed
explicitly by callers.  Returns the trace and `some` final handle when the
loop exited within `fuel` iterations, else `none`. -/
def main (svc : SpeechService) (input_uri encoding : String) (sample_rate : Int)
    (language_code : String) (fuel : Nat) : List Event × Option Operation :=
  let request := buildRequest input_uri encoding sample_rate language_code
  let operation := svc.asyncRecognize request
  let name := operation.name
  let loopRun := pollLoop svc name fuel 0
  let pre := [Event.makeChannel "speech.googleapis.com" 443,
    Event.asyncRecognizeCall request DEADLINE_SECS,
    Event.printOperation operation]
  (pre ++ loopRun.1 ++ finalPrint loopRun.2, loopRun.2)

/-- Python's `str.startswith`, embedded over the strings' character
sequences. -/
def startswith (text pat : String) : Bool :=
  pat.toList.isPrefixOf text.toList

/-- `_gcs_uri` (lines 107-111): accept the text iff it starts with
`gs://`, else raise `argparse.ArgumentTypeError` (a usage error). -/
def _gcs_uri (text : String) : Except String String :=
  if startswith text "gs://" then Except.ok text
  else Except.error "Cloud Storage uri must be of the form gs://bucket/path/"

/-- The `choices` list of `--encoding` (lines 118-119). -/
def encodingChoices : List String :=
  ["LINEAR16", "FLAC", "MULAW", "AMR", "AMR_WB"]

/-- Accumulating value of a string of decimal digits; `none` as soon as a
non-digit appears. -/
def digitsValAux : List Char → Nat → Option Nat
  | [], acc => some acc
  | c :: cs, acc =>
    if c.isDigit then digitsValAux cs (acc * 10 + (c.toNat - 48)) else none

/-- Value of a non-empty string of decimal digits. -/
def digitsVal : List Char → Option Nat
  | [] => none
  | cs => digitsValAux cs 0

/-- Python's `int(...)` conversion applied by `type=int` (line 123), for
optionally signed decimal literals (the inputs relevant to this CLI):
an optional sign followed by at least one digit; anything else raises
`ValueError`, which argparse turns into a usage error. -/
def parse_int (s : String) : Option Int :=
  match s.toList with
  | [] => none
  | ('-' : Char) :: cs => (digitsVal cs).map fun n => -(n : Int)
  | ('+' : Char) :: cs => (digitsVal cs).map fun n => (n : Int)
  | cs => (digitsVal cs).map fun n => (n : Int)

/-- The parsed command line (lines 114-125). -/
structure Args where
  input_uri : String
  encoding : String
  sample_rate : Int
deriving DecidableEq

/-- `parser.parse_args()` (lines 114-125): the positional `input_uri` goes
through `_gcs_uri`; `--encoding` defaults to `LINEAR16` and must be one of
`encodingChoices`; `--sample_rate` goes through `int` with default
`16000`.  `none` for an option means it was not supplied. -/
def parse_args (input_uri : String) (encoding : Option String)
    (sample_rate : Option String) : Except String Args :=
  match _gcs_uri input_uri with
  | Except.error e => Except.error e
  | Except.ok uri =>
    let enc := encoding.getD "LINEAR16"
    if enc ∈ encodingChoices then
      match sample_rate with
      | none => Except.ok { input_uri := uri, encoding := enc, sample_rate := 16000 }
      | some s =>
        match parse_int s with
        | some n => Except.ok { input_uri := uri, encoding := enc, sample_rate := n }
        | none => Except.error ("argument --sample_rate: invalid int value: " ++ s)
    else Except.error ("argument --encoding: invalid choice: " ++ enc)

/-- Outcome of one run of the whole script. -/
inductive ProgResult where
  /-- Argument parsing failed: `argparse` exits with code 2 before `main`
  is ever entered. -/
  | usageError (msg : String)
  /-- `main` ran and the poll loop exited via `break` with this handle. -/
  | finished (final : Operation)
  /-- `main` ran but the poll loop was still running when the fuel bound
  was reached. -/
  | stillPolling
deriving DecidableEq

/-- The process exit code, when the run terminated: `argparse` usage
errors exit 2; a finished run exits 0; a run still polling has not
exited. -/
def exitCode : ProgResult → Option Nat
  | ProgResult.usageError _ => some 2
  | ProgResult.finished _ => some 0
  | ProgResult.stillPolling => none

/-- The `__main__` block (lines 114-126): parse the arguments, then run
`main` (with the `language_code` default `'en-US'`).  Produces the event
trace and the outcome. -/
def program (svc : SpeechService) (input_uri : String) (encoding : Option String)
    (sample_rate : Option String) (fuel : Nat) : List Event × ProgResult :=
  match parse_args input_uri encoding sample_rate with
  | Except.error e => ([], ProgResult.usageError e)
  | Except.ok args =>
    let r := main svc args.input_uri args.encoding args.sample_rate "en-US" fuel
    match r.2 with
    | none => (r.1, ProgResult.stillPolling)
    | some op => (r.1, ProgResult.finished op)

/-- A not-yet-done operation handle with the proto default (absent) error
and an empty response, as a service could return it. -/
def opPending : Operation :=
  { name := "op-1", done := false, error := { code := 0, message := "" },
    response := { results := [] } }

/-- A completed operation handle with no error and an empty result list. -/
def opDone : Operation :=
  { name := "op-1", done := true, error := { code := 0, message := "" },
    response := { results := [] } }

/-- A not-yet-done handle that carries a non-empty error message (and a
non-zero error code). -/
def opTransientError : Operation :=
  { name := "op-1", done := false, error := { code := 13, message := "transient failure" },
    response := { results := [] } }

/-- A service whose operation never completes: every poll still reports
not done. -/
def svcPending : SpeechService :=
  { asyncRecognize := fun _ => opPending, getOperation := fun _ _ => opPending }

/-- A service whose first poll reply carries a non-empty error message with
`done=false`, and whose second poll reply is done. -/
def svcErrThenDone : SpeechService :=
  { asyncRecognize := fun _ => opPending,
    getOperation := fun _ i => if i = 0 then opTransientError else opDone }

/-- A service whose submission reply is already done, and whose polls are
done as well. -/
def svcDoneEarly : SpeechService :=
  { asyncRecognize := fun _ => opDone, getOperation := fun _ _ => opDone }

/-- A service whose first poll reply carries a name different from the
submission reply's name. -/
def svcRenaming : SpeechService :=
  { asyncRecognize := fun _ => opPending,
    getOperation := fun _ i =>
      if i = 0 then
        { name := "some-other-op", done := false, error := { code := 0, message := "" },
          response := { results := [] } }
      else opDone }

/-- The pairwise discipline of a trace: a `GetOperation` call occurs only
immediately after a 1-second sleep. -/
def sleepPrecedesGetOps (tr : List Event) : Prop :=
  ∀ (n : Nat) (req : GetOperationRequest) (d : Nat),
    tr[n]? = some (Event.getOperationCall req d) →
    1 ≤ n ∧ tr[n - 1]? = some (Event.sleep 1)

/-! ## Structural lemmas about traces -/

theorem countGetOps_append (l₁ l₂ : List Event) :
    countGetOps (l₁ ++ l₂) = countGetOps l₁ + countGetOps l₂ := by
  simp [countGetOps, List.countP_append]

theorem countGetOps_iterEvents (name : String) (op : Operation) :
    countGetOps (iterEvents name op) = 1 := by
  unfold iterEvents countGetOps
  split <;> rfl

theorem main_fst (svc : SpeechService) (uri enc lc : String) (sr : Int) (fuel : Nat) :
    (main svc uri enc sr lc fuel).1 =
      Event.makeChannel "speech.googleapis.com" 443 ::
        Event.asyncRecognizeCall (buildRequest uri enc sr lc) DEADLINE_SECS ::
          Event.printOperation (svc.asyncRecognize (buildRequest uri enc sr lc)) ::
            ((pollLoop svc (svc.asyncRecognize (buildRequest uri enc sr lc)).name fuel 0).1 ++
              finalPrint
                (pollLoop svc (svc.asyncRecognize (buildRequest uri enc sr lc)).name fuel 0).2) := by
  simp [main]

theorem main_snd (svc : SpeechService) (uri enc lc : String) (sr : Int) (fuel : Nat) :
    (main svc uri enc sr lc fuel).2 =
      (pollLoop svc (svc.asyncRecognize (buildRequest uri enc sr lc)).name fuel 0).2 := rfl

theorem pollLoop_never_done (svc : SpeechService) (name : String)
    (h : ∀ j, (svc.getOperation ⟨name⟩ j).done = false) :
    ∀ fuel i, (pollLoop svc name fuel i).2 = none ∧
      countGetOps (pollLoop svc name fuel i).1 = fuel := by
  intro fuel
  induction fuel with
  | zero => exact fun i => ⟨rfl, rfl⟩
  | succ n ih =>
    intro i
    have h2 := ih (i + 1)
    simp [pollLoop, h i, countGetOps_append, countGetOps_iterEvents, h2.1, h2.2,
      Nat.add_comm]

theorem pollLoop_first_done (svc : SpeechService) (name : String) :
    ∀ fuel i k, k < fuel →
      (svc.getOperation ⟨name⟩ (i + k)).done = true →
      (∀ j, j < k → (svc.getOperation ⟨name⟩ (i + j)).done = false) →
      (pollLoop svc name fuel i).2 = some (svc.getOperation ⟨name⟩ (i + k)) ∧
        countGetOps (pollLoop svc name fuel i).1 = k + 1 := by
  intro fuel
  induction fuel with
  | zero => intro i k hk; exact absurd hk (Nat.not_lt_zero k)
  | succ n ih =>
    intro i k hk hdone hmin
    cases k with
    | zero =>
      have hd : (svc.getOperation ⟨name⟩ i).done = true := by simpa using hdone
      simp [pollLoop, hd, countGetOps_iterEvents]
    | succ m =>
      have h0 : (svc.getOperation ⟨name⟩ i).done = false := by
        simpa using hmin 0 (Nat.succ_pos m)
      have heq : i + (m + 1) = (i + 1) + m := by omega
      have ihm := ih (i + 1) m (by omega) (by rw [← heq]; exact hdone)
        (fun j hj => by
          have hj1 := hmin (j + 1) (by omega)
          have e : i + (j + 1) = (i + 1) + j := by omega
          rwa [e] at hj1)
      rw [heq]
      simp [pollLoop, h0, countGetOps_append, countGetOps_iterEvents, ihm.1, ihm.2,
        Nat.add_comm]

theorem pollLoop_count_le (svc : SpeechService) (name : String) :
    ∀ fuel i k, (svc.getOperation ⟨name⟩ (i + k)).done = true →
      countGetOps (pollLoop svc name fuel i).1 ≤ k + 1 := by
  intro fuel
  induction fuel with
  | zero => intro i k _; simp [pollLoop, countGetOps]
  | succ n ih =>
    intro i k hdone
    by_cases h0 : (svc.getOperation ⟨name⟩ i).done = true
    · simp [pollLoop, h0, countGetOps_iterEvents]
    · have h0f : (svc.getOperation ⟨name⟩ i).done = false := by
        simpa using h0
      cases k with
      | zero => exact absurd (by simpa using hdone) h0
      | succ m =>
        have heq : i + (m + 1) = (i + 1) + m := by omega
        have hrec := ih (i + 1) m (by rw [← heq]; exact hdone)
        simp only [pollLoop, h0f, Bool.false_eq_true, if_false, countGetOps_append,
          countGetOps_iterEvents]
        omega

theorem pollLoop_terminates (svc : SpeechService) (name : String) :
    ∀ fuel i k, k < fuel → (svc.getOperation ⟨name⟩ (i + k)).done = true →
      ((pollLoop svc name fuel i).2).isSome = true := by
  intro fuel
  induction fuel with
  | zero => intro i k hk; exact absurd hk (Nat.not_lt_zero k)
  | succ n ih =>
    intro i k hk hdone
    by_cases h0 : (svc.getOperation ⟨name⟩ i).done = true
    · simp [pollLoop, h0]
    · have h0f : (svc.getOperation ⟨name⟩ i).done = false := by simpa using h0
      cases k with
      | zero => exact absurd (by simpa using hdone) h0
      | succ m =>
        have heq : i + (m + 1) = (i + 1) + m := by omega
        have hrec := ih (i + 1) m (by omega) (by rw [← heq]; exact hdone)
        simpa [pollLoop, h0f] using hrec

theorem pollLoop_getOp_req (svc : SpeechService) (name : String) :
    ∀ fuel i req d, Event.getOperationCall req d ∈ (pollLoop svc name fuel i).1 →
      req = ⟨name⟩ ∧ d = DEADLINE_SECS := by
  intro fuel
  induction fuel with
  | zero => intro i req d h; simp [pollLoop] at h
  | succ n ih =>
    intro i req d h
    have hiter : ∀ op : Operation, Event.getOperationCall req d ∈ iterEvents name op →
        req = ⟨name⟩ ∧ d = DEADLINE_SECS := by
      intro op hm
      unfold iterEvents at hm
      rcases List.mem_append.mp hm with h1 | h2
      · simpa using h1
      · split at h2 <;> simp at h2
    by_cases h0 : (svc.getOperation ⟨name⟩ i).done = true
    · rw [pollLoop, if_pos h0] at h
      exact hiter _ h
    · rw [pollLoop, if_neg h0] at h
      rcases List.mem_append.mp h with h1 | h2
      · exact hiter _ h1
      · exact ih (i + 1) req d h2

theorem printResults_no_getOp (resp : AsyncRecognizeResponse) :
    ∀ e ∈ printResults resp, e.isGetOperationCall = false := by
  intro e he
  simp only [printResults, List.mem_flatMap, List.mem_cons, List.mem_map] at he
  rcases he with ⟨r, _, he | ⟨a, _, rfl⟩⟩
  · rw [he]; rfl
  · rfl

theorem printResults_rpcDeadline (resp : AsyncRecognizeResponse) :
    ∀ e ∈ printResults resp, e.rpcDeadline = none := by
  intro e he
  simp only [printResults, List.mem_flatMap, List.mem_cons, List.mem_map] at he
  rcases he with ⟨r, _, he | ⟨a, _, rfl⟩⟩
  · rw [he]; rfl
  · rfl

theorem finalPrint_no_getOp (o : Option Operation) :
    ∀ e ∈ finalPrint o, e.isGetOperationCall = false := by
  cases o with
  | none => intro e he; simp [finalPrint] at he
  | some op => exact printResults_no_getOp op.response

theorem rpcDeadline_iterEvents (name : String) (op : Operation) :
    ∀ e ∈ iterEvents name op,
      e.rpcDeadline = none ∨ e.rpcDeadline = some DEADLINE_SECS := by
  intro e he
  unfold iterEvents at he
  rcases List.mem_append.mp he with h1 | h2
  · simp only [List.mem_cons, List.not_mem_nil, or_false] at h1
    rcases h1 with rfl | rfl | rfl
    · exact Or.inl rfl
    · exact Or.inl rfl
    · exact Or.inr rfl
  · split at h2 <;> simp at h2
    rw [h2]; exact Or.inl rfl

theorem rpcDeadline_pollLoop (svc : SpeechService) (name : String) :
    ∀ fuel i, ∀ e ∈ (pollLoop svc name fuel i).1,
      e.rpcDeadline = none ∨ e.rpcDeadline = some DEADLINE_SECS := by
  intro fuel
  induction fuel with
  | zero => intro i e he; simp [pollLoop] at he
  | succ n ih =>
    intro i e he
    by_cases h0 : (svc.getOperation ⟨name⟩ i).done = true
    · rw [pollLoop, if_pos h0] at he
      exact rpcDeadline_iterEvents name _ e he
    · rw [pollLoop, if_neg h0] at he
      rcases List.mem_append.mp he with h1 | h2
      · exact rpcDeadline_iterEvents name _ e h1
      · exact ih (i + 1) e h2

theorem rpcDeadline_main (svc : SpeechService) (uri enc lc : String) (sr : Int)
    (fuel : Nat) : ∀ e ∈ (main svc uri enc sr lc fuel).1,
      e.rpcDeadline = none ∨ e.rpcDeadline = some DEADLINE_SECS := by
  intro e he
  rw [main_fst] at he
  simp only [List.mem_cons] at he
  rcases he with rfl | rfl | rfl | he
  · exact Or.inl rfl
  · exact Or.inr rfl
  · exact Or.inl rfl
  · rcases List.mem_append.mp he with h1 | h2
    · exact rpcDeadline_pollLoop svc _ fuel 0 e h1
    · cases hfp : (pollLoop svc (svc.asyncRecognize (buildRequest uri enc sr lc)).name fuel 0).2 with
      | none => rw [hfp] at h2; simp [finalPrint] at h2
      | some op =>
        rw [hfp] at h2
        exact Or.inl (printResults_rpcDeadline op.response e h2)

theorem sleepPrecedes_nil : sleepPrecedesGetOps [] := by
  intro n req d h
  simp at h

theorem sleepPrecedes_cons (e : Event) (l : List Event)
    (he : e.isGetOperationCall = false)
    (hhead : ∀ (req : GetOperationRequest) (d : Nat),
      l[0]? = some (Event.getOperationCall req d) → e = Event.sleep 1)
    (hl : sleepPrecedesGetOps l) : sleepPrecedesGetOps (e :: l) := by
  intro n req d h
  cases n with
  | zero =>
    simp only [List.getElem?_cons_zero, Option.some.injEq] at h
    rw [h] at he
    simp [Event.isGetOperationCall] at he
  | succ m =>
    simp only [List.getElem?_cons_succ] at h
    cases m with
    | zero =>
      refine ⟨by omega, ?_⟩
      have hes := hhead req d h
      simpa using hes
    | succ p =>
      obtain ⟨h1, h2⟩ := hl (p + 1) req d h
      refine ⟨by omega, ?_⟩
      simpa using h2

theorem sleepPrecedes_sleep_getOp_cons (req : GetOperationRequest) (d : Nat)
    (l : List Event) (hl : sleepPrecedesGetOps l)
    (hhd : ∀ (r : GetOperationRequest) (dd : Nat),
      l[0]? ≠ some (Event.getOperationCall r dd)) :
    sleepPrecedesGetOps (Event.sleep 1 :: Event.getOperationCall req d :: l) := by
  intro n r dd h
  cases n with
  | zero => simp at h
  | succ m =>
    cases m with
    | zero => exact ⟨by omega, rfl⟩
    | succ p =>
      simp only [List.getElem?_cons_succ] at h
      cases p with
      | zero => exact absurd h (hhd r dd)
      | succ q =>
        obtain ⟨h1, h2⟩ := hl (q + 1) r dd h
        refine ⟨by omega, ?_⟩
        simpa using h2

theorem sleepPrecedes_iter_append (name : String) (op : Operation) (l : List Event)
    (hl : sleepPrecedesGetOps l)
    (hhd : ∀ (r : GetOperationRequest) (dd : Nat),
      l[0]? ≠ some (Event.getOperationCall r dd)) :
    sleepPrecedesGetOps (iterEvents name op ++ l) ∧
      ∀ (r : GetOperationRequest) (dd : Nat),
        (iterEvents name op ++ l)[0]? ≠ some (Event.getOperationCall r dd) := by
  unfold iterEvents
  by_cases hmsg : op.error.message = ""
  · rw [if_pos hmsg]
    simp only [List.append_nil, List.cons_append, List.nil_append]
    refine ⟨?_, ?_⟩
    · refine sleepPrecedes_cons _ _ rfl (fun r dd hh => absurd hh (by simp)) ?_
      exact sleepPrecedes_sleep_getOp_cons _ _ l hl hhd
    · intro r dd hh
      simp at hh
  · rw [if_neg hmsg]
    simp only [List.cons_append, List.nil_append, List.append_assoc]
    have hinner : sleepPrecedesGetOps (Event.printOperationError op.error :: l) := by
      refine sleepPrecedes_cons _ _ rfl (fun r dd hh => absurd hh (hhd r dd)) hl
    refine ⟨?_, ?_⟩
    · refine sleepPrecedes_cons _ _ rfl (fun r dd hh => absurd hh (by simp)) ?_
      exact sleepPrecedes_sleep_getOp_cons _ _ _ hinner (by intro r dd hh; simp at hh)
    · intro r dd hh
      simp at hh

theorem sleepPrecedes_pollLoop_append (svc : SpeechService) (name : String)
    (k : List Event) (hk : sleepPrecedesGetOps k)
    (hkhd : ∀ (r : GetOperationRequest) (dd : Nat),
      k[0]? ≠ some (Event.getOperationCall r dd)) :
    ∀ fuel i, sleepPrecedesGetOps ((pollLoop svc name fuel i).1 ++ k) ∧
      ∀ (r : GetOperationRequest) (dd : Nat),
        ((pollLoop svc name fuel i).1 ++ k)[0]? ≠ some (Event.getOperationCall r dd) := by
  intro fuel
  induction fuel with
  | zero =>
    intro i
    simpa [pollLoop] using ⟨hk, hkhd⟩
  | succ n ih =>
    intro i
    by_cases h0 : (svc.getOperation ⟨name⟩ i).done = true
    · rw [pollLoop, if_pos h0]
      exact sleepPrecedes_iter_append name _ k hk hkhd
    · rw [pollLoop, if_neg h0]
      have hrec := ih (i + 1)
      rw [List.append_assoc]
      exact sleepPrecedes_iter_append name _ _ hrec.1 hrec.2

theorem no_getOp_sleepPrecedes (l : List Event)
    (h : ∀ e ∈ l, e.isGetOperationCall = false) : sleepPrecedesGetOps l := by
  intro n req d hn
  exfalso
  have hmem : Event.getOperationCall req d ∈ l := List.getElem?_mem hn
  have := h _ hmem
  simp [Event.isGetOperationCall] at this

theorem finalPrint_head_no_getOp (o : Option Operation) :
    ∀ (r : GetOperationRequest) (dd : Nat),
      (finalPrint o)[0]? ≠ some (Event.getOperationCall r dd) := by
  intro r dd h
  have hmem : Event.getOperationCall r dd ∈ finalPrint o := List.getElem?_mem h
  have := finalPrint_no_getOp o _ hmem
  simp [Event.isGetOperationCall] at this

theorem sleepPrecedes_main (svc : SpeechService) (uri enc lc : String) (sr : Int)
    (fuel : Nat) : sleepPrecedesGetOps (main svc uri enc sr lc fuel).1 := by
  rw [main_fst]
  have hfp := sleepPrecedes_pollLoop_append svc
    (svc.asyncRecognize (buildRequest uri enc sr lc)).name
    (finalPrint (pollLoop svc (svc.asyncRecognize (buildRequest uri enc sr lc)).name fuel 0).2)
    (no_getOp_sleepPrecedes _ (finalPrint_no_getOp _))
    (finalPrint_head_no_getOp _) fuel 0
  refine sleepPrecedes_cons _ _ rfl (fun r dd hh => absurd hh ?_) ?_
  · intro hc
    simp at hc
  · refine sleepPrecedes_cons _ _ rfl (fun r dd hh => absurd hh ?_) ?_
    · intro hc
      simp at hc
    · refine sleepPrecedes_cons _ _ rfl (fun r dd hh => absurd hh (hfp.2 r dd)) hfp.1

theorem countGetOps_cons_not (e : Event) (l : List Event)
    (h : e.isGetOperationCall = false) : countGetOps (e :: l) = countGetOps l := by
  simp [countGetOps, List.countP_cons, h]

theorem countGetOps_finalPrint (o : Option Operation) :
    countGetOps (finalPrint o) = 0 := by
  rw [countGetOps, List.countP_eq_zero]
  intro a ha
  rw [finalPrint_no_getOp o a ha]
  simp

theorem countGetOps_main (svc : SpeechService) (uri enc lc : String) (sr : Int)
    (fuel : Nat) :
    countGetOps (main svc uri enc sr lc fuel).1 =
      countGetOps
        (pollLoop svc (svc.asyncRecognize (buildRequest uri enc sr lc)).name fuel 0).1 := by
  rw [main_fst]
  rw [countGetOps_cons_not (Event.makeChannel _ _) _ rfl]
  rw [countGetOps_cons_not (Event.asyncRecognizeCall _ _) _ rfl]
  rw [countGetOps_cons_not (Event.printOperation _) _ rfl]
  rw [countGetOps_append, countGetOps_finalPrint, Nat.add_zero]

theorem countGetOps_pollLoop_pos (svc : SpeechService) (name : String)
    (fuel i : Nat) (h : 1 ≤ fuel) :
    1 ≤ countGetOps (pollLoop svc name fuel i).1 := by
  obtain ⟨m, rfl⟩ : ∃ m, fuel = m + 1 := ⟨fuel - 1, by omega⟩
  by_cases h0 : (svc.getOperation ⟨name⟩ i).done = true
  · rw [pollLoop, if_pos h0, countGetOps_iterEvents]
  · rw [pollLoop, if_neg h0, countGetOps_append, countGetOps_iterEvents]
    omega

theorem sleep_mem_pollLoop (svc : SpeechService) (name : String) (fuel i : Nat)
    (h : 1 ≤ fuel) : Event.sleep 1 ∈ (pollLoop svc name fuel i).1 := by
  obtain ⟨m, rfl⟩ : ∃ m, fuel = m + 1 := ⟨fuel - 1, by omega⟩
  by_cases h0 : (svc.getOperation ⟨name⟩ i).done = true
  · rw [pollLoop, if_pos h0]
    unfold iterEvents
    simp
  · rw [pollLoop, if_neg h0]
    refine List.mem_append_left _ ?_
    unfold iterEvents
    simp

theorem parse_args_ok (uri enc s : String) (n : Int)
    (huri : startswith uri "gs://" = true)
    (henc : enc ∈ encodingChoices)
    (hs : parse_int s = some n) :
    parse_args uri (some enc) (some s) =
      Except.ok { input_uri := uri, encoding := enc, sample_rate := n } := by
  unfold parse_args _gcs_uri
  rw [huri]
  simp [henc, hs]

theorem program_ok (svc : SpeechService) (uri enc s : String) (n : Int) (fuel : Nat)
    (hp : parse_args uri (some enc) (some s) =
      Except.ok { input_uri := uri, encoding := enc, sample_rate := n }) :
    program svc uri (some enc) (some s) fuel =
      ((main svc uri enc n "en-US" fuel).1,
        match (main svc uri enc n "en-US" fuel).2 with
        | none => ProgResult.stillPolling
        | some op => ProgResult.finished op) := by
  unfold program
  rw [hp]
  cases hm : (main svc uri enc n "en-US" fuel).2 with
  | none => simp [hm]
  | some op => simp [hm]

/-! ## Claims -/

/-- Claim C1: for every sequence of polled operation handles, the poll loop
exits in the iteration in which a handle with `done=true` is first returned
(so when the first done reply is the `k`-th, exactly `k + 1` queries are
issued and that reply is the final handle), and a handle carrying a
non-empty error message but `done=false` never by itself makes the loop
exit — the hypotheses allow every earlier reply to carry any error, and the
loop still continues until `done` is true. -/
theorem loop_exits_when_done_first_observed (svc : SpeechService) (name : String)
    (k fuel : Nat)
    (hdone : (svc.getOperation ⟨name⟩ k).done = true)
    (hfirst : ∀ j, j < k → (svc.getOperation ⟨name⟩ j).done = false)
    (hfuel : k < fuel) :
    (pollLoop svc name fuel 0).2 = some (svc.getOperation ⟨name⟩ k) ∧
      countGetOps (pollLoop svc name fuel 0).1 = k + 1 := by
  have h := pollLoop_first_done svc name fuel 0 k hfuel (by simpa using hdone)
    (fun j hj => by simpa using hfirst j hj)
  simpa using h

/-- Claim C1 witness: the first poll reply carries a non-empty error message
with `done=false` and does not stop the loop; the loop exits at the second
reply, the first with `done=true`, having issued exactly two queries. -/
theorem loop_exits_when_done_first_observed_witness :
    (svcErrThenDone.getOperation ⟨"op-1"⟩ 1).done = true ∧
      (∀ j, j < 1 → (svcErrThenDone.getOperation ⟨"op-1"⟩ j).done = false) ∧
      (svcErrThenDone.getOperation ⟨"op-1"⟩ 0).error.message ≠ "" ∧
      ((pollLoop svcErrThenDone "op-1" 3 0).2 =
          some (svcErrThenDone.getOperation ⟨"op-1"⟩ 1) ∧
        countGetOps (pollLoop svcErrThenDone "op-1" 3 0).1 = 1 + 1) := by
  have hfirst : ∀ j, j < 1 → (svcErrThenDone.getOperation ⟨"op-1"⟩ j).done = false := by
    intro j hj
    cases j with
    | zero => rfl
    | succ m => exact absurd hj (by omega)
  exact ⟨rfl, hfirst, by decide,
    loop_exits_when_done_first_observed svcErrThenDone "op-1" 1 3 rfl hfirst (by omega)⟩

/-- Claim C2: once a polled handle with `done=true` has been observed, the
poller issues no further `GetOperation` queries: if the `k`-th poll reply
is done then at most `k + 1` queries appear in the whole trace, and the
loop has terminated (within the same iteration in which `done=true` was
observed). -/
theorem no_queries_after_done_observed (svc : SpeechService) (name : String)
    (k fuel : Nat)
    (hdone : (svc.getOperation ⟨name⟩ k).done = true)
    (hfuel : k < fuel) :
    countGetOps (pollLoop svc name fuel 0).1 ≤ k + 1 ∧
      ((pollLoop svc name fuel 0).2).isSome = true :=
  ⟨pollLoop_count_le svc name fuel 0 k (by simpa using hdone),
    pollLoop_terminates svc name fuel 0 k hfuel (by simpa using hdone)⟩

/-- Claim C2 witness: a service that is done from the very first poll on is
queried exactly once even with abundant fuel. -/
theorem no_queries_after_done_observed_witness :
    (svcDoneEarly.getOperation ⟨"op-1"⟩ 0).done = true ∧ 0 < 5 ∧
      (countGetOps (pollLoop svcDoneEarly "op-1" 5 0).1 ≤ 0 + 1 ∧
        ((pollLoop svcDoneEarly "op-1" 5 0).2).isSome = true) :=
  ⟨rfl, by omega,
    no_queries_after_done_observed svcDoneEarly "op-1" 0 5 rfl (by omega)⟩

/-- Claim C3: an `input_uri` that does not start with `gs://` is rejected
by the argument parser before any network interaction: the run's trace is
empty (so in particular contains no channel creation, submission, or poll
event), the outcome is a usage error, and the process exit code is
non-zero. -/
theorem bad_uri_rejected_before_network (svc : SpeechService) (input_uri : String)
    (encoding sample_rate : Option String) (fuel : Nat)
    (h : startswith input_uri "gs://" = false) :
    (program svc input_uri encoding sample_rate fuel).1 = [] ∧
      (∃ msg, (program svc input_uri encoding sample_rate fuel).2 =
        ProgResult.usageError msg) ∧
      exitCode (program svc input_uri encoding sample_rate fuel).2 ≠ some 0 := by
  have hg : _gcs_uri input_uri =
      Except.error "Cloud Storage uri must be of the form gs://bucket/path/" := by
    unfold _gcs_uri
    rw [h]
    simp
  unfold program parse_args
  rw [hg]
  exact ⟨rfl, ⟨_, rfl⟩, by simp [exitCode]⟩

/-- Claim C3 witness: `not-a-gcs-path` is rejected with an empty trace and
a usage-error outcome. -/
theorem bad_uri_rejected_before_network_witness :
    (startswith "not-a-gcs-path" "gs://" = false) ∧
      ((program svcPending "not-a-gcs-path" none none 4).1 = [] ∧
        (∃ msg, (program svcPending "not-a-gcs-path" none none 4).2 =
          ProgResult.usageError msg) ∧
        exitCode (program svcPending "not-a-gcs-path" none none 4).2 ≠ some 0) :=
  ⟨by decide,
    bad_uri_rejected_before_network svcPending "not-a-gcs-path" none none 4 (by decide)⟩

/-- Claim C4: in every run of `main`, each `GetOperation` query — including
the first query after submission — occurs in the trace immediately after
the fixed 1-second sleep. -/
theorem sleep_before_each_query (svc : SpeechService) (uri enc lc : String)
    (sr : Int) (fuel n : Nat) (req : GetOperationRequest) (d : Nat)
    (h : (main svc uri enc sr lc fuel).1[n]? = some (Event.getOperationCall req d)) :
    1 ≤ n ∧ (main svc uri enc sr lc fuel).1[n - 1]? = some (Event.sleep 1) :=
  sleepPrecedes_main svc uri enc lc sr fuel n req d h

/-- Claim C4 witness: in a concrete run the first query sits at index 5 of
the trace, right after the 1-second sleep at index 4. -/
theorem sleep_before_each_query_witness :
    ((main svcPending "gs://bucket/audio.flac" "LINEAR16" 16000 "en-US" 1).1[5]? =
        some (Event.getOperationCall ⟨"op-1"⟩ 10)) ∧
      (1 ≤ 5 ∧
        (main svcPending "gs://bucket/audio.flac" "LINEAR16" 16000 "en-US" 1).1[4]? =
          some (Event.sleep 1)) :=
  ⟨rfl, sleep_before_each_query svcPending "gs://bucket/audio.flac" "LINEAR16" "en-US"
    16000 1 5 ⟨"op-1"⟩ 10 rfl⟩

/-- Claim C5: when the service never reports `done`, the poll loop never
terminates — for every iteration bound the run is still polling and has
issued exactly that many queries, so elapsed iterations are unbounded —
while every RPC event in the trace (the one submission and each poll)
carries the fixed 10-second deadline. -/
theorem never_done_unbounded_polling (svc : SpeechService) (uri enc lc : String)
    (sr : Int)
    (h : ∀ (req : GetOperationRequest) (i : Nat), (svc.getOperation req i).done = false) :
    ∀ fuel, (main svc uri enc sr lc fuel).2 = none ∧
      countGetOps (main svc uri enc sr lc fuel).1 = fuel ∧
      ∀ e ∈ (main svc uri enc sr lc fuel).1,
        e.rpcDeadline = none ∨ e.rpcDeadline = some 10 := by
  intro fuel
  have hn := pollLoop_never_done svc
    (svc.asyncRecognize (buildRequest uri enc sr lc)).name (fun j => h _ j) fuel 0
  refine ⟨?_, ?_, ?_⟩
  · rw [main_snd]
    exact hn.1
  · rw [countGetOps_main]
    exact hn.2
  · exact fun e he => rpcDeadline_main svc uri enc lc sr fuel e he

/-- Claim C5 witness: with a service that never completes, after three
iterations the run is still polling, has issued three queries, and every
RPC event so far carried the 10-second deadline. -/
theorem never_done_unbounded_polling_witness :
    (∀ (req : GetOperationRequest) (i : Nat),
        (svcPending.getOperation req i).done = false) ∧
      ((main svcPending "gs://bucket/audio.flac" "FLAC" 16000 "en-US" 3).2 = none ∧
        countGetOps (main svcPending "gs://bucket/audio.flac" "FLAC" 16000 "en-US" 3).1 = 3 ∧
        ∀ e ∈ (main svcPending "gs://bucket/audio.flac" "FLAC" 16000 "en-US" 3).1,
          e.rpcDeadline = none ∨ e.rpcDeadline = some 10) :=
  ⟨fun _ _ => rfl,
    never_done_unbounded_polling svcPending "gs://bucket/audio.flac" "FLAC" "en-US"
      16000 (fun _ _ => rfl) 3⟩

/-- Claim C6 counterexample: `--sample_rate` is converted by plain `int`
with no positivity check, so the non-positive value `-4` is accepted: the
parse succeeds, the run is not a usage error (it is still polling, having
submitted), and the trace contains a submission carrying
`sample_rate = -4`. -/
theorem sample_rate_nonpositive_not_rejected :
    parse_args "gs://bucket/audio.flac" none (some "-4") =
      Except.ok { input_uri := "gs://bucket/audio.flac"
                  encoding := "LINEAR16"
                  sample_rate := -4 } ∧
      (program svcPending "gs://bucket/audio.flac" none (some "-4") 1).2 =
        ProgResult.stillPolling ∧
      Event.asyncRecognizeCall
          (buildRequest "gs://bucket/audio.flac" "LINEAR16" (-4) "en-US")
          DEADLINE_SECS ∈
        (program svcPending "gs://bucket/audio.flac" none (some "-4") 1).1 :=
  ⟨rfl, rfl, by decide⟩

/-- Claim C6 (amended): `--sample_rate` is parsed with plain integer
conversion (default 16000); a non-positive integer value is accepted rather
than rejected — the run is not a usage error and the submitted request
carries exactly the supplied value.  Only a string that fails integer
conversion produces a usage error. -/
theorem sample_rate_nonpositive_accepted (svc : SpeechService) (uri enc s : String)
    (n : Int) (fuel : Nat)
    (huri : startswith uri "gs://" = true)
    (henc : enc ∈ encodingChoices)
    (hs : parse_int s = some n)
    (_hn : n ≤ 0) :
    parse_args uri (some enc) (some s) =
      Except.ok { input_uri := uri, encoding := enc, sample_rate := n } ∧
      (∀ msg, (program svc uri (some enc) (some s) fuel).2 ≠
        ProgResult.usageError msg) ∧
      Event.asyncRecognizeCall (buildRequest uri enc n "en-US") DEADLINE_SECS ∈
        (program svc uri (some enc) (some s) fuel).1 := by
  have hp := parse_args_ok uri enc s n huri henc hs
  rw [program_ok svc uri enc s n fuel hp]
  refine ⟨hp, ?_, ?_⟩
  · intro msg
    cases hm : (main svc uri enc n "en-US" fuel).2 <;> simp [hm]
  · show Event.asyncRecognizeCall (buildRequest uri enc n "en-US") DEADLINE_SECS ∈
      (main svc uri enc n "en-US" fuel).1
    rw [main_fst]
    exact List.mem_cons_of_mem _ (List.mem_cons_self _ _)

/-- Claim C6 (amended) witness: `-7` is accepted and submitted. -/
theorem sample_rate_nonpositive_accepted_witness :
    (startswith "gs://bucket/audio.flac" "gs://" = true) ∧
      ("FLAC" ∈ encodingChoices) ∧ (parse_int "-7" = some (-7)) ∧ ((-7 : Int) ≤ 0) ∧
      (parse_args "gs://bucket/audio.flac" (some "FLAC") (some "-7") =
        Except.ok { input_uri := "gs://bucket/audio.flac"
                    encoding := "FLAC"
                    sample_rate := -7 } ∧
        (∀ msg, (program svcPending "gs://bucket/audio.flac" (some "FLAC")
          (some "-7") 1).2 ≠ ProgResult.usageError msg) ∧
        Event.asyncRecognizeCall
            (buildRequest "gs://bucket/audio.flac" "FLAC" (-7) "en-US")
            DEADLINE_SECS ∈
          (program svcPending "gs://bucket/audio.flac" (some "FLAC") (some "-7") 1).1) :=
  ⟨by decide, by decide, by decide, by decide,
    sample_rate_nonpositive_accepted svcPending "gs://bucket/audio.flac" "FLAC" "-7"
      (-7) 1 (by decide) (by decide) (by decide) (by decide)⟩

/-- Claim C7: for every encoding in the enumerated choice list and every
sample-rate string the CLI accepts, the submitted recognition request —
the second event of the run's trace — carries exactly the supplied
encoding and sample rate in its config and exactly the supplied URI in its
audio field. -/
theorem request_echoes_inputs (svc : SpeechService) (uri enc s : String) (n : Int)
    (fuel : Nat)
    (huri : startswith uri "gs://" = true)
    (henc : enc ∈ encodingChoices)
    (hs : parse_int s = some n) :
    ((program svc uri (some enc) (some s) fuel).1)[1]? =
      some (Event.asyncRecognizeCall
        { config := { encoding := enc, sample_rate := n, language_code := "en-US" }
          audio := { uri := uri } } DEADLINE_SECS) := by
  have hp := parse_args_ok uri enc s n huri henc hs
  rw [program_ok svc uri enc s n fuel hp]
  show ((main svc uri enc n "en-US" fuel).1)[1]? = _
  rw [main_fst]
  rfl

/-- Claim C7 witness: with encoding `FLAC` and sample rate `16000`, the
submitted request echoes both and the URI. -/
theorem request_echoes_inputs_witness :
    (startswith "gs://bucket/audio.flac" "gs://" = true) ∧
      ("FLAC" ∈ encodingChoices) ∧ (parse_int "16000" = some 16000) ∧
      ((program svcPending "gs://bucket/audio.flac" (some "FLAC")
          (some "16000") 1).1)[1]? =
        some (Event.asyncRecognizeCall
          { config := { encoding := "FLAC"
                        sample_rate := 16000
                        language_code := "en-US" }
            audio := { uri := "gs://bucket/audio.flac" } } DEADLINE_SECS) :=
  ⟨by decide, by decide, by decide,
    request_echoes_inputs svcPending "gs://bucket/audio.flac" "FLAC" "16000" 16000 1
      (by decide) (by decide) (by decide)⟩

/-- Claim C8: every `GetOperation` query in a run's trace carries the
operation name captured once from the submission reply before the loop;
polled replies carrying a different name never change later queries. -/
theorem queries_carry_submission_name (svc : SpeechService) (uri enc lc : String)
    (sr : Int) (fuel : Nat) (req : GetOperationRequest) (d : Nat)
    (h : Event.getOperationCall req d ∈ (main svc uri enc sr lc fuel).1) :
    req.name = (svc.asyncRecognize (buildRequest uri enc sr lc)).name := by
  rw [main_fst] at h
  simp only [List.mem_cons] at h
  rcases h with h | h | h | h
  · exact absurd h (by simp)
  · exact absurd h (by simp)
  · exact absurd h (by simp)
  · rcases List.mem_append.mp h with h1 | h2
    · have hq := pollLoop_getOp_req svc _ fuel 0 req d h1
      rw [hq.1]
    · have hf := finalPrint_no_getOp _ _ h2
      simp [Event.isGetOperationCall] at hf

/-- Claim C8 witness: a service whose first poll reply renames the
operation; both queries of a two-iteration run still carry the submission
reply's name. -/
theorem queries_carry_submission_name_witness :
    ((svcRenaming.getOperation ⟨"op-1"⟩ 0).name ≠
        (svcRenaming.asyncRecognize
          (buildRequest "gs://bucket/audio.flac" "FLAC" 16000 "en-US")).name) ∧
      (Event.getOperationCall ⟨"op-1"⟩ 10 ∈
        (main svcRenaming "gs://bucket/audio.flac" "FLAC" 16000 "en-US" 2).1) ∧
      (⟨"op-1"⟩ : GetOperationRequest).name =
        (svcRenaming.asyncRecognize
          (buildRequest "gs://bucket/audio.flac" "FLAC" 16000 "en-US")).name :=
  ⟨by decide, by decide,
    queries_carry_submission_name svcRenaming "gs://bucket/audio.flac" "FLAC" "en-US"
      16000 2 ⟨"op-1"⟩ 10 (by decide)⟩

/-- Claim C9: the loop never inspects the submission reply's `done` field:
even when the submission reply already has `done=true`, a run entering the
loop (any positive fuel) still sleeps at least once and issues at least one
`GetOperation` query. -/
theorem polls_even_if_submission_already_done (svc : SpeechService)
    (uri enc lc : String) (sr : Int) (fuel : Nat)
    (_hdone : (svc.asyncRecognize (buildRequest uri enc sr lc)).done = true)
    (hfuel : 1 ≤ fuel) :
    Event.sleep 1 ∈ (main svc uri enc sr lc fuel).1 ∧
      1 ≤ countGetOps (main svc uri enc sr lc fuel).1 := by
  refine ⟨?_, ?_⟩
  · rw [main_fst]
    exact List.mem_cons_of_mem _ (List.mem_cons_of_mem _ (List.mem_cons_of_mem _
      (List.mem_append_left _ (sleep_mem_pollLoop svc _ fuel 0 hfuel))))
  · rw [countGetOps_main]
    exact countGetOps_pollLoop_pos svc _ fuel 0 hfuel

/-- Claim C9 witness: a submission reply that is already done still leads
to one sleep and one query. -/
theorem polls_even_if_submission_already_done_witness :
    ((svcDoneEarly.asyncRecognize
        (buildRequest "gs://bucket/audio.flac" "LINEAR16" 16000 "en-US")).done = true) ∧
      (1 ≤ 1) ∧
      (Event.sleep 1 ∈
          (main svcDoneEarly "gs://bucket/audio.flac" "LINEAR16" 16000 "en-US" 1).1 ∧
        1 ≤ countGetOps
          (main svcDoneEarly "gs://bucket/audio.flac" "LINEAR16" 16000 "en-US" 1).1) :=
  ⟨rfl, by omega,
    polls_even_if_submission_already_done svcDoneEarly "gs://bucket/audio.flac"
      "LINEAR16" "en-US" 16000 1 rfl (by omega)⟩

/-- Claim C10: within a poll iteration the operation-error warning is
printed iff the polled handle's error message string is non-empty; error
information in other fields (such as a non-zero code) with an empty message
produces no warning. -/
theorem warning_iff_nonempty_error_message (name : String) (op : Operation) :
    (∃ e, Event.printOperationError e ∈ iterEvents name op) ↔
      op.error.message ≠ "" := by
  unfold iterEvents
  by_cases h : op.error.message = ""
  · rw [if_pos h]
    simp [h]
  · rw [if_neg h]
    simp [h]

end TranscribeAsync
